import Mathlib

/-!
Verification of the chunked parallel route-pair orchestrator
(`parallel_route_pairs.py` and `helpers.py`).

Python strings are modelled as `List Char` (`PyStr`): Python compares
strings lexicographically by code point, which is exactly the
lexicographic order on the underlying character lists, and every
operation we need (`split`, comparison, concatenation, f-string
interpolation of integers) is executable on `List Char`.
-/

/-- A Python string: its list of characters (code points). -/
abbrev PyStr := List Char

/-- Python's `<` on strings: lexicographic comparison by code point,
with a proper prefix comparing less than the longer string. -/
def strLt : PyStr → PyStr → Bool
  | [], [] => false
  | [], _ :: _ => true
  | _ :: _, [] => false
  | a :: as, b :: bs => if a < b then true else if b < a then false else strLt as bs

/-- Python's `<=` on strings, as used by `sorted`. -/
def strLe (s t : PyStr) : Bool := !(strLt t s)

/-- `strLe` as a relation, for use with `List.insertionSort`. -/
def strLeR (s t : PyStr) : Prop := strLe s t = true

instance : DecidableRel strLeR := fun s t => by unfold strLeR; infer_instance

/-- Decimal digits of `n`, most significant first, via explicit fuel so the
definition is structural and kernel-reducible. -/
def natDigitsAux (fuel : Nat) (n : Nat) : PyStr :=
  match fuel with
  | 0 => []
  | fuel + 1 => if n = 0 then [] else natDigitsAux fuel (n / 10) ++ [Char.ofNat (48 + n % 10)]

/-- Python's `str(n)` for a natural number `n` (as interpolated by f-strings
such as `f"Routes_{lo}_{hi}"`). -/
def natRepr (n : Nat) : PyStr := if n = 0 then ['0'] else natDigitsAux (n + 1) n

/-- One step of Python's `str.split(sep)` for a non-empty separator:
`acc` is the current segment, `s` the unread rest; split at each
leftmost non-overlapping occurrence of `sep`.  `fuel` makes the
recursion structural; `fuel >= s.length` is enough. -/
def py_split_aux (sep : PyStr) (fuel : Nat) (acc : PyStr) (s : PyStr) : List PyStr :=
  match fuel with
  | 0 => [acc ++ s]
  | fuel + 1 =>
    match s with
    | [] => [acc]
    | c :: rest =>
      if sep.isPrefixOf s then
        acc :: py_split_aux sep fuel [] (s.drop sep.length)
      else
        py_split_aux sep fuel (acc ++ [c]) rest

/-- Python's `s.split(sep)` for a non-empty separator `sep`. -/
def py_split (s sep : PyStr) : List PyStr :=
  py_split_aux sep (s.length + 1) [] s

/-- The three geoprocessing message sinks used by `helpers.py`:
`arcpy.AddError`, `arcpy.AddWarning`, `arcpy.AddMessage`. -/
inductive GPMessageSink where
  | error
  | warning
  | info
deriving DecidableEq, Repr

/-- `helpers.MSG_STR_SPLITTER = " | "`. -/
def MSG_STR_SPLITTER : PyStr := " | ".data

/-- Embedding of `helpers.parse_std_and_write_to_gp_ui`: split the message on
`MSG_STR_SPLITTER`; the two-tuple unpacking `level, msg = ...` succeeds exactly
when the split has two parts, and the broad `except` writes the whole string
to the info sink otherwise.  Returns the sink written to and the text written. -/
def parse_std_and_write_to_gp_ui (msg_string : PyStr) : GPMessageSink × PyStr :=
  match py_split msg_string MSG_STR_SPLITTER with
  | [level, msg] =>
    if level = "ERROR".data ∨ level = "CRITICAL".data then (GPMessageSink.error, msg)
    else if level = "WARNING".data then (GPMessageSink.warning, msg)
    else (GPMessageSink.info, msg)
  | _ => (GPMessageSink.info, msg_string)

/-- Modelled from the spec: `helpers.get_oid_ranges_for_input` is called by
`ParallelRoutePairCalculator.__init__` and exercised by
`test_get_oid_ranges_for_input`, but its definition is not among the source
files.  Per the spec's Chunk Planner contract, it partitions the 1-based
ObjectID domain `[1, total_row_count]` into ascending contiguous inclusive
ranges of at most `max_chunk_size` each, `ceil(total_row_count /
max_chunk_size)` of them. -/
def get_oid_ranges_for_input (total_row_count max_chunk_size : Nat) : List (Nat × Nat) :=
  (List.range ((total_row_count + max_chunk_size - 1) / max_chunk_size)).map
    (fun i => (i * max_chunk_size + 1, min ((i + 1) * max_chunk_size) total_row_count))

/-- An origin row as read by `Route._insert_stops`'s SearchCursor over the
chunk's origins layer: `(SHAPE@, origin_id_field, assigned_dest_field,
*origin_transfer_fields)`.  Geometry is opaque, so `shape` is an abstract tag.
The assigned destination id can be NULL (`None`) in the data. -/
structure OriginRow where
  shape : Nat
  id : PyStr
  destId : Option PyStr
  transfer : List PyStr
deriving DecidableEq, Repr

/-- A destination row as read by the inner SearchCursor in
`Route._insert_stops`: `(SHAPE@, dest_id_field, *destination_transfer_fields)`. -/
structure DestRow where
  shape : Nat
  id : PyStr
  transfer : List PyStr
deriving DecidableEq, Repr

/-- A row of the Route solver's Stops input, in the field order used by both
insert cursors of `Route._insert_stops`: `[RouteName, Sequence,
OriginUniqueID, SHAPE@, DestinationUniqueID, *transfer_fields]`. -/
structure StopRow where
  routeName : PyStr
  sequence : Nat
  originUID : Option PyStr
  shape : Nat
  destUID : Option PyStr
  transfer : List PyStr
deriving DecidableEq, Repr

/-- The route name built in `Route._insert_stops`:
`f"{dest_id} - {origin_id}"` when `reverse_direction` else
`f"{origin_id} - {dest_id}"`. -/
def route_pair_name (reverse_direction : Bool) (origin_id dest_id : PyStr) : PyStr :=
  if reverse_direction then dest_id ++ " - ".data ++ origin_id
  else origin_id ++ " - ".data ++ dest_id

/-- The origin's stop row from `Route._insert_stops`:
`[route_name, origin_sequence, origin[1], origin[0], None] + list(origin)[3:]`,
with `origin_sequence = 2` when `reverse_direction` else `1`. -/
def originStopRow (reverse_direction : Bool) (m : OriginRow × PyStr × DestRow) : StopRow :=
  { routeName := route_pair_name reverse_direction m.1.id m.2.1
    sequence := if reverse_direction then 2 else 1
    originUID := some m.1.id
    shape := m.1.shape
    destUID := none
    transfer := m.1.transfer }

/-- The destination's stop row from `Route._insert_stops`:
`[route_name, destination_sequence, None, destination[0], destination[1]] +
list(destination)[2:]`, with `destination_sequence = 1` when
`reverse_direction` else `2`. -/
def destStopRow (reverse_direction : Bool) (m : OriginRow × PyStr × DestRow) : StopRow :=
  { routeName := route_pair_name reverse_direction m.1.id m.2.1
    sequence := if reverse_direction then 1 else 2
    originUID := none
    shape := m.2.2.shape
    destUID := some m.2.2.id
    transfer := m.2.2.transfer }

/-- The destination row matched to an assigned destination id: the first row of
the destinations layer satisfying the where clause `dest_id_field = dest_val`
(the per-id cache in `_insert_stops` is observationally the same lookup). -/
def find_destination (dests : List DestRow) (dest_id : PyStr) : Option DestRow :=
  dests.find? (fun d => d.id == dest_id)

/-- The loop of `Route._insert_stops` over the chunk's origins.  Returns the
rows inserted through the origins cursor (in origin order) and the rows
accumulated in `destination_rows` (same order).  An origin with a NULL
assigned destination id, or whose assigned id matches no destination row
(`StopIteration` on the inner cursor), is skipped with `continue`. -/
def insert_stops_loop (reverse_direction : Bool) (dests : List DestRow) :
    List OriginRow → List StopRow × List StopRow
  | [] => ([], [])
  | o :: rest =>
    let tail := insert_stops_loop reverse_direction dests rest
    match o.destId with
    | none => tail
    | some dest_id =>
      match find_destination dests dest_id with
      | none => tail
      | some d =>
        (originStopRow reverse_direction (o, dest_id, d) :: tail.1,
         destStopRow reverse_direction (o, dest_id, d) :: tail.2)

/-- The full Stops content produced by `Route._insert_stops`: the origin rows
are inserted one by one during the loop, and all accumulated destination rows
are inserted afterwards through the second cursor. -/
def insert_stops (reverse_direction : Bool) (origins : List OriginRow)
    (dests : List DestRow) : List StopRow :=
  (insert_stops_loop reverse_direction dests origins).1 ++
    (insert_stops_loop reverse_direction dests origins).2

/-- The origins of the chunk that actually produce a stop pair, with their
assigned destination id and matched destination row, in origin order. -/
def matched_pairs (dests : List DestRow) : List OriginRow → List (OriginRow × PyStr × DestRow)
  | [] => []
  | o :: rest =>
    let tail := matched_pairs dests rest
    match o.destId with
    | none => tail
    | some dest_id =>
      match find_destination dests dest_id with
      | none => tail
      | some d => (o, dest_id, d) :: tail

/-- The fields of the `job_result` dictionary initialized in `Route.__init__`
and updated by `Route.solve` that the orchestrator reads
(`jobId`, `solveSucceeded`, `solveMessages`, `outputRoutes`). -/
structure JobResult where
  jobId : PyStr
  solveSucceeded : Bool
  solveMessages : List PyStr
  outputRoutes : PyStr
deriving DecidableEq, Repr

/-- The `job_result` dictionary as initialized in `Route.__init__`:
`solveSucceeded=False`, empty messages, empty output path. -/
def initial_job_result (job_id : PyStr) : JobResult :=
  { jobId := job_id, solveSucceeded := false, solveMessages := [], outputRoutes := [] }

/-- What the opaque `rt_solver.solve()` call does for a chunk: either it raises
an unexpected internal error, or it returns a result object carrying
`solveSucceeded` and its solver messages. -/
inductive EngineOutcome where
  | raises
  | returns (succeeded : Bool) (messages : List PyStr)
deriving DecidableEq, Repr

/-- The intermediate output path built by `Route._export_to_feature_class`:
`os.path.join(scratch_folder, job_id, "scratch.gdb", f"Routes_{lo}_{hi}")`
(`job_folder = scratch_folder/job_id` from `Route.__init__`,
`od_workspace = job_folder/scratch.gdb`). -/
def output_routes_path (scratch_folder job_id : PyStr) (chunk : Nat × Nat) : PyStr :=
  scratch_folder ++ "/".data ++ job_id ++ "/scratch.gdb/Routes_".data ++
    natRepr chunk.1 ++ "_".data ++ natRepr chunk.2

/-- Embedding of `solve_route` (which builds a `Route` and runs `Route.solve`
on the chunk).  `origins` is the chunk's selected origin subset and `dests`
the destinations layer.  `Route.solve` selects the inputs, initializes the
solver, inserts the stops, and if no stops were inserted returns with the
initial job result (the solve is skipped).  Otherwise it calls
`rt_solver.solve()`: neither `solve_route` nor `Route.solve` has any
exception handler, so a raised internal error propagates (`Except.error`);
a returned result has its messages stored, and only on solver-reported
success is the result exported and `outputRoutes` set. -/
def solve_route (reverse_direction : Bool) (origins : List OriginRow)
    (dests : List DestRow) (engine : EngineOutcome)
    (scratch_folder job_id : PyStr) (chunk : Nat × Nat) : Except Unit JobResult :=
  if (insert_stops reverse_direction origins dests).length = 0 then
    Except.ok (initial_job_result job_id)
  else
    match engine with
    | EngineOutcome.raises => Except.error ()
    | EngineOutcome.returns succeeded messages =>
      if succeeded then
        Except.ok { jobId := job_id, solveSucceeded := true, solveMessages := messages,
                    outputRoutes := output_routes_path scratch_folder job_id chunk }
      else
        Except.ok { jobId := job_id, solveSucceeded := false, solveMessages := messages,
                    outputRoutes := [] }

/-- What `future.result()` yields for one completed job in
`ParallelRoutePairCalculator.solve_route_in_parallel`, in arrival
(`as_completed`) order: either the job's result dictionary, or an exception
(the worker crashed or its result could not be retrieved). -/
inductive Completion where
  | ok (r : JobResult)
  | transportError
deriving DecidableEq, Repr

/-- The completion-draining loop of `solve_route_in_parallel`: for each
arriving completion, retrieve the result — if retrieval raises, log and
re-raise (`Except.error`), abandoning everything — otherwise append the job's
`outputRoutes` to `route_fcs` when `solveSucceeded`, and just log when not. -/
def collect_route_fcs : List Completion → Except Unit (List PyStr)
  | [] => Except.ok []
  | Completion.transportError :: _ => Except.error ()
  | Completion.ok r :: rest =>
    match collect_route_fcs rest with
    | Except.error e => Except.error e
    | Except.ok fcs => Except.ok (if r.solveSucceeded then r.outputRoutes :: fcs else fcs)

/-- Python's `sorted(route_fcs)`: the collected intermediate output paths in
ascending string order (stable sort under the string order). -/
def sortRouteFcs (route_fcs : List PyStr) : List PyStr :=
  List.insertionSort strLeR route_fcs

/-- A feature class as the merge step sees it: a field-name schema and rows of
field values. -/
structure FeatureClass where
  schema : List PyStr
  rows : List (List PyStr)
deriving DecidableEq, Repr

/-- Embedding of `ParallelRoutePairCalculator._post_process_route_fcs`,
applied to the contents of the sorted `route_fcs`: create the final output
feature class from the first feature class as schema template
(`arcpy.Describe(self.route_fcs[0])` / `CreateFeatureclass` with template),
then insert every row of every feature class, in order, unchanged.
Only ever called with a non-empty list (`if self.route_fcs:`). -/
def post_process_route_fcs : List FeatureClass → FeatureClass
  | [] => { schema := [], rows := [] }
  | first :: rest =>
    { schema := first.schema
      rows := (first :: rest).foldl (fun acc fc => acc ++ fc.rows) [] }

/-- The terminal state of a batch that did not raise: the merged output (if
any chunk succeeded) and whether the "All Route solves failed, so no output
was produced." warning was emitted. -/
structure BatchOutcome where
  mergedOutput : Option FeatureClass
  allFailedWarning : Bool
deriving DecidableEq, Repr

/-- Embedding of the result-handling tail of
`ParallelRoutePairCalculator.solve_route_in_parallel` (after pre-flight
validation and transfer-field discovery): drain the completions — a retrieval
failure propagates out, producing no combined output — then, if any
successful outputs were collected, sort them and merge them; otherwise skip
the merge and warn.  `fcContent` maps an intermediate output path to the
feature class stored there. -/
def solve_route_in_parallel (fcContent : PyStr → FeatureClass)
    (completions : List Completion) : Except Unit BatchOutcome :=
  match collect_route_fcs completions with
  | Except.error e => Except.error e
  | Except.ok route_fcs =>
    if route_fcs.isEmpty then
      Except.ok { mergedOutput := none, allFailedWarning := true }
    else
      Except.ok
        { mergedOutput := some (post_process_route_fcs ((sortRouteFcs route_fcs).map fcContent))
          allFailedWarning := false }

/-- The state of an `arcpy.nax.Route` solver object, abstracted to the mapping
from property name to property value. -/
def SolverProps := PyStr → PyStr

/-- `setattr(self.rt_solver, name, value)` when it succeeds: update one
property. -/
def setProp (s : SolverProps) (name value : PyStr) : SolverProps :=
  fun p => if p = name then value else s p

/-- The `for prop in RT_PROPS:` loop of `Route.initialize_rt_solver`: a
property listed in `RT_PROPS_SET_BY_TOOL` is skipped with a warning; otherwise
`setattr` is attempted and, if it raises (`settable` false), the engine
default is kept with a warning. -/
def apply_config_props (settable : PyStr → PyStr → Bool) (set_by_tool : List PyStr) :
    SolverProps → List (PyStr × PyStr) → SolverProps
  | s, [] => s
  | s, (p, v) :: rest =>
    apply_config_props settable set_by_tool
      (if p ∈ set_by_tool then s else if settable p v then setProp s p v else s) rest

/-- The four solver properties set explicitly from the tool inputs at the end
of `Route.initialize_rt_solver`. -/
structure CallerProps where
  travelMode : PyStr
  timeUnits : PyStr
  distanceUnits : PyStr
  timeOfDay : PyStr

/-- Embedding of `Route.initialize_rt_solver`: start from the engine-default
property values of a fresh `arcpy.nax.Route` object, apply the config-file
property table (skipping `RT_PROPS_SET_BY_TOOL` entries and keeping defaults
where `setattr` fails), then assign `travelMode`, `timeUnits`,
`distanceUnits`, and `timeOfDay` unconditionally from the caller. -/
def initialize_rt_solver (defaults : SolverProps) (rt_props : List (PyStr × PyStr))
    (set_by_tool : List PyStr) (settable : PyStr → PyStr → Bool)
    (caller : CallerProps) : SolverProps :=
  setProp
    (setProp
      (setProp
        (setProp (apply_config_props settable set_by_tool defaults rt_props)
          "travelMode".data caller.travelMode)
        "timeUnits".data caller.timeUnits)
      "distanceUnits".data caller.distanceUnits)
    "timeOfDay".data caller.timeOfDay

/-- A concrete origin row (assigned destination `D1`) used in witnesses. -/
def sampleOrigin : OriginRow :=
  { shape := 0, id := "O1".data, destId := some "D1".data, transfer := [] }

/-- A concrete destination row with id `D1` used in witnesses. -/
def sampleDest : DestRow := { shape := 7, id := "D1".data, transfer := [] }

/-- A concrete origin row whose assigned destination id `DX` matches no
destination, used in witnesses. -/
def orphanOrigin : OriginRow :=
  { shape := 3, id := "O9".data, destId := some "DX".data, transfer := [] }

theorem strLt_irrefl (s : PyStr) : strLt s s = false := by
  induction s with
  | nil => rfl
  | cons a as ih => simp [strLt, lt_irrefl, ih]

theorem strLt_asymm (s t : PyStr) (h : strLt s t = true) : strLt t s = false := by
  induction s generalizing t with
  | nil => cases t <;> simp [strLt]
  | cons a as ih =>
    cases t with
    | nil => simp [strLt] at h
    | cons b bs =>
      simp only [strLt] at h ⊢
      by_cases hab : a < b
      · simp [hab, not_lt_of_gt hab, ne_of_lt hab]
      · by_cases hba : b < a
        · simp [hab, hba] at h
        · simp [hab, hba] at h ⊢
          exact ih bs h

theorem strLt_eq_false_antisymm (s t : PyStr) (hst : strLt s t = false)
    (hts : strLt t s = false) : s = t := by
  induction s generalizing t with
  | nil => cases t <;> simp_all [strLt]
  | cons a as ih =>
    cases t with
    | nil => simp [strLt] at hts
    | cons b bs =>
      simp only [strLt] at hst hts
      by_cases hab : a < b
      · simp [hab] at hst
      · by_cases hba : b < a
        · simp [hab, hba] at hts
        · have hab' : a = b := le_antisymm (not_lt.mp hba) (not_lt.mp hab)
          simp [hab, hba] at hst hts
          rw [hab', ih bs hst hts]

theorem strLt_trans (s t u : PyStr) (hst : strLt s t = true) (htu : strLt t u = true) :
    strLt s u = true := by
  induction s generalizing t u with
  | nil =>
    cases t with
    | nil => simp [strLt] at hst
    | cons b bs =>
      cases u with
      | nil => simp [strLt] at htu
      | cons c cs => simp [strLt]
  | cons a as ih =>
    cases t with
    | nil => simp [strLt] at hst
    | cons b bs =>
      cases u with
      | nil => simp [strLt] at htu
      | cons c cs =>
        simp only [strLt] at hst htu ⊢
        by_cases hab : a < b
        · by_cases hbc : b < c
          · rw [if_pos (lt_trans hab hbc)]
          · by_cases hcb : c < b
            · rw [if_neg hbc, if_pos hcb] at htu
              exact absurd htu (by simp)
            · have hbc' : b = c := le_antisymm (not_lt.mp hcb) (not_lt.mp hbc)
              subst hbc'
              rw [if_pos hab]
        · by_cases hba : b < a
          · rw [if_neg hab, if_pos hba] at hst
            exact absurd hst (by simp)
          · have hab' : a = b := le_antisymm (not_lt.mp hba) (not_lt.mp hab)
            subst hab'
            rw [if_neg hab, if_neg (fun h => hab h)] at hst
            by_cases hac : a < c
            · rw [if_pos hac]
            · by_cases hca : c < a
              · rw [if_neg hac, if_pos hca] at htu
                exact absurd htu (by simp)
              · rw [if_neg hac, if_neg hca] at htu ⊢
                exact ih bs cs hst htu

instance : IsTotal PyStr strLeR :=
  ⟨fun s t => by
    unfold strLeR strLe
    by_cases h : strLt t s = true
    · right
      simp [strLt_asymm t s h]
    · left
      simp [Bool.not_eq_true] at h
      simp [h]⟩

instance : IsTrans PyStr strLeR :=
  ⟨fun s t u hst htu => by
    unfold strLeR strLe at hst htu ⊢
    simp only [Bool.not_eq_true'] at hst htu ⊢
    cases h2 : strLt u s with
    | false => rfl
    | true =>
      by_cases h1 : strLt t u = true
      · exact absurd (strLt_trans t u s h1 h2) (by simp [hst])
      · simp only [Bool.not_eq_true] at h1
        have hteq : t = u := strLt_eq_false_antisymm t u h1 htu
        rw [hteq] at hst
        exact absurd h2 (by simp [hst])⟩

instance : IsAntisymm PyStr strLeR :=
  ⟨fun s t hst hts => by
    unfold strLeR strLe at hst hts
    simp only [Bool.not_eq_true'] at hst hts
    exact strLt_eq_false_antisymm s t hts hst⟩

theorem get_oid_ranges_getElem (n m k : Nat) :
    (get_oid_ranges_for_input n m)[k]? =
      if k < (n + m - 1) / m then some (k * m + 1, min ((k + 1) * m) n) else none := by
  unfold get_oid_ranges_for_input
  rw [List.getElem?_map]
  by_cases h : k < (n + m - 1) / m
  · simp [List.getElem?_range, h]
  · rw [if_neg h, List.getElem?_eq_none (by simpa using not_lt.mp h)]
    rfl

theorem chunk_bound_of_lt_len (n m k : Nat) (hm : 0 < m) (h : k < (n + m - 1) / m) :
    k * m + m ≤ n + m - 1 := by
  have h1 : k + 1 ≤ (n + m - 1) / m := h
  have h2 : (k + 1) * m ≤ n + m - 1 := (Nat.le_div_iff_mul_le hm).mp h1
  have h3 : (k + 1) * m = k * m + m := Nat.succ_mul k m
  omega

theorem lt_len_of_chunk_bound (n m k : Nat) (hm : 0 < m) (h : k * m + m ≤ n + m - 1) :
    k < (n + m - 1) / m := by
  have h3 : (k + 1) * m = k * m + m := Nat.succ_mul k m
  have h2 : (k + 1) * m ≤ n + m - 1 := by omega
  exact (Nat.le_div_iff_mul_le hm).mpr h2

/-- C1: for every `total_row_count >= 0` and `max_chunk_size > 0`, the chunk
plan of `get_oid_ranges_for_input` has `ceil(total_row_count /
max_chunk_size)` chunks; it is empty iff `total_row_count = 0`; every chunk
has `low <= high`; consecutive chunks are contiguous (`next.low = prev.high +
1`); the chunks are ascending and non-overlapping (an earlier chunk ends
strictly before a later one starts); a 1-based index `j` lies in some chunk
iff `1 <= j <= total_row_count`; and `plan(208, 50) =
[[1,50],[51,100],[101,150],[151,200],[201,208]]`. -/
theorem get_oid_ranges_spec (n m : Nat) (hm : 0 < m) :
    (get_oid_ranges_for_input n m).length = (n + m - 1) / m ∧
    (get_oid_ranges_for_input n m = [] ↔ n = 0) ∧
    (∀ (k : Nat) (c : Nat × Nat), (get_oid_ranges_for_input n m)[k]? = some c → c.1 ≤ c.2) ∧
    (∀ (k : Nat) (c c' : Nat × Nat), (get_oid_ranges_for_input n m)[k]? = some c →
      (get_oid_ranges_for_input n m)[k + 1]? = some c' → c'.1 = c.2 + 1) ∧
    (∀ (k l : Nat) (c d : Nat × Nat), (get_oid_ranges_for_input n m)[k]? = some c →
      (get_oid_ranges_for_input n m)[l]? = some d → k < l → c.2 < d.1) ∧
    (∀ j, (1 ≤ j ∧ j ≤ n) ↔ ∃ c ∈ get_oid_ranges_for_input n m, c.1 ≤ j ∧ j ≤ c.2) ∧
    get_oid_ranges_for_input 208 50 =
      [(1, 50), (51, 100), (101, 150), (151, 200), (201, 208)] := by
  have hlen : (get_oid_ranges_for_input n m).length = (n + m - 1) / m := by
    unfold get_oid_ranges_for_input
    simp
  have hsome : ∀ (k : Nat) (c : Nat × Nat), (get_oid_ranges_for_input n m)[k]? = some c →
      k < (n + m - 1) / m ∧ c = (k * m + 1, min ((k + 1) * m) n) := by
    intro k c hc
    rw [get_oid_ranges_getElem] at hc
    by_cases h : k < (n + m - 1) / m
    · rw [if_pos h] at hc
      exact ⟨h, (Option.some_inj.mp hc).symm⟩
    · rw [if_neg h] at hc
      exact absurd hc (by simp)
  refine ⟨hlen, ?_, ?_, ?_, ?_, ?_, by decide⟩
  · rw [← List.length_eq_zero, hlen]
    constructor
    · intro h
      by_contra hn
      have hb : 0 * m + m ≤ n + m - 1 := by omega
      have := lt_len_of_chunk_bound n m 0 hm hb
      omega
    · intro h
      subst h
      rw [Nat.div_eq_zero_iff hm]
      omega
  · intro k c hc
    obtain ⟨hk, hceq⟩ := hsome k c hc
    subst hceq
    have hb := chunk_bound_of_lt_len n m k hm hk
    have h3 : (k + 1) * m = k * m + m := Nat.succ_mul k m
    simp only
    omega
  · intro k c c' hc hc'
    obtain ⟨hk, hceq⟩ := hsome k c hc
    obtain ⟨hk', hceq'⟩ := hsome (k + 1) c' hc'
    subst hceq hceq'
    have hb := chunk_bound_of_lt_len n m (k + 1) hm hk'
    have h3 : (k + 1) * m = k * m + m := Nat.succ_mul k m
    have h4 : (k + 2) * m = (k + 1) * m + m := Nat.succ_mul (k + 1) m
    simp only
    omega
  · intro k l c d hc hd hkl
    obtain ⟨hk, hceq⟩ := hsome k c hc
    obtain ⟨hl, hdeq⟩ := hsome l d hd
    subst hceq hdeq
    have h3 : (k + 1) * m = k * m + m := Nat.succ_mul k m
    have h5 : (k + 1) * m ≤ l * m := Nat.mul_le_mul_right m (by omega)
    simp only
    omega
  · intro j
    constructor
    · rintro ⟨hj1, hjn⟩
      have hq : m * ((j - 1) / m) + (j - 1) % m = j - 1 := Nat.div_add_mod (j - 1) m
      have hr : (j - 1) % m < m := Nat.mod_lt _ hm
      have hmul : ((j - 1) / m) * m = m * ((j - 1) / m) := Nat.mul_comm _ _
      have hmul2 : ((j - 1) / m + 1) * m = ((j - 1) / m) * m + m := Nat.succ_mul _ m
      have hlt : (j - 1) / m < (n + m - 1) / m := by
        apply lt_len_of_chunk_bound n m _ hm
        omega
      have hget : (get_oid_ranges_for_input n m)[(j - 1) / m]? =
          some (((j - 1) / m) * m + 1, min (((j - 1) / m + 1) * m) n) := by
        rw [get_oid_ranges_getElem, if_pos hlt]
      refine ⟨(((j - 1) / m) * m + 1, min (((j - 1) / m + 1) * m) n),
        List.getElem?_mem hget, ?_, ?_⟩
      · simp only
        omega
      · simp only
        omega
    · rintro ⟨c, hc, hc1, hc2⟩
      obtain ⟨k, hk⟩ := List.getElem?_of_mem hc
      obtain ⟨hklen, hceq⟩ := hsome k c hk
      subst hceq
      simp only at hc1 hc2
      omega

/-- Witness for C1: the spec holds at `total_row_count = 208`,
`max_chunk_size = 50`, giving the documented example plan. -/
theorem get_oid_ranges_spec_witness :
    0 < 50 ∧ get_oid_ranges_for_input 208 50 =
      [(1, 50), (51, 100), (101, 150), (151, 200), (201, 208)] :=
  ⟨by decide, (get_oid_ranges_spec 208 50 (by decide)).2.2.2.2.2.2⟩

theorem collect_route_fcs_error (cs : List Completion)
    (h : Completion.transportError ∈ cs) : collect_route_fcs cs = Except.error () := by
  induction cs with
  | nil => simp at h
  | cons c rest ih =>
    cases c with
    | transportError => rfl
    | ok r =>
      have hmem : Completion.transportError ∈ rest := by
        rcases List.mem_cons.mp h with h1 | h1
        · exact absurd h1 (by simp)
        · exact h1
      simp [collect_route_fcs, ih hmem]

/-- C3: if retrieving the result of any single worker raises (a
worker-transport failure appears anywhere in the completion stream), the whole
parallel run fails by propagating that error (`Except.error`), regardless of
how many other jobs already completed successfully, and no combined output is
produced from the jobs that did finish (the raising run carries no
`BatchOutcome`). -/
theorem transport_error_aborts_batch (fcContent : PyStr → FeatureClass)
    (completions : List Completion)
    (h : Completion.transportError ∈ completions) :
    solve_route_in_parallel fcContent completions = Except.error () := by
  unfold solve_route_in_parallel
  rw [collect_route_fcs_error completions h]

/-- Witness for C3: one job already finished successfully, then a
worker-transport failure arrives; the batch raises and no merged output
exists. -/
theorem transport_error_aborts_batch_witness :
    Completion.transportError ∈
      [Completion.ok { jobId := "a".data, solveSucceeded := true,
                       solveMessages := [], outputRoutes := "p".data },
       Completion.transportError] ∧
    solve_route_in_parallel (fun _ => { schema := [], rows := [] })
      [Completion.ok { jobId := "a".data, solveSucceeded := true,
                       solveMessages := [], outputRoutes := "p".data },
       Completion.transportError] = Except.error () :=
  ⟨by decide, transport_error_aborts_batch _ _ (by decide)⟩

theorem collect_route_fcs_all_failed (cs : List Completion)
    (h : ∀ c ∈ cs, ∃ r, c = Completion.ok r ∧ r.solveSucceeded = false) :
    collect_route_fcs cs = Except.ok [] := by
  induction cs with
  | nil => rfl
  | cons c rest ih =>
    obtain ⟨r, hr, hf⟩ := h c (by simp)
    subst hr
    simp [collect_route_fcs, ih (fun c hc => h c (by simp [hc])), hf]

/-- C4: a batch in which every chunk's solve fails (every completion is a
normally returned job result with `solveSucceeded = false`) completes without
raising: the merge step is skipped entirely (`mergedOutput = none`), the
"all solves failed" warning is emitted, and the batch terminates as a
successful (`Except.ok`) run — distinct from a batch aborted by a fatal
error (`Except.error`). -/
theorem all_solves_failed_completes (fcContent : PyStr → FeatureClass)
    (completions : List Completion)
    (h : ∀ c ∈ completions, ∃ r, c = Completion.ok r ∧ r.solveSucceeded = false) :
    solve_route_in_parallel fcContent completions =
      Except.ok { mergedOutput := none, allFailedWarning := true } := by
  simp [solve_route_in_parallel, collect_route_fcs_all_failed completions h]

/-- Witness for C4: two chunks, both solves failed; the batch completes with
no output and the warning. -/
theorem all_solves_failed_completes_witness :
    (∀ c ∈ [Completion.ok (initial_job_result "a".data),
            Completion.ok (initial_job_result "b".data)],
      ∃ r, c = Completion.ok r ∧ r.solveSucceeded = false) ∧
    solve_route_in_parallel (fun _ => { schema := [], rows := [] })
      [Completion.ok (initial_job_result "a".data),
       Completion.ok (initial_job_result "b".data)] =
      Except.ok { mergedOutput := none, allFailedWarning := true } := by
  have hall : ∀ c ∈ [Completion.ok (initial_job_result "a".data),
      Completion.ok (initial_job_result "b".data)],
      ∃ r, c = Completion.ok r ∧ r.solveSucceeded = false := by
    intro c hc
    rcases List.mem_cons.mp hc with h | h
    · exact ⟨initial_job_result "a".data, h, rfl⟩
    · rcases List.mem_cons.mp h with h2 | h2
      · exact ⟨initial_job_result "b".data, h2, rfl⟩
      · simp at h2
  exact ⟨hall, all_solves_failed_completes _ _ hall⟩

/-- C10: `parse_std_and_write_to_gp_ui` is total (it is a Lean function, so it
terminates without raising on every input): a message that splits on `" | "`
into exactly a level and a text is routed to the error sink when the level is
`ERROR` or `CRITICAL`, to the warning sink when it is `WARNING`, and to the
info sink otherwise; any string whose split does not have exactly two parts is
written verbatim to the info sink instead of raising. -/
theorem parse_std_routing (s : PyStr) :
    (∀ level msg : PyStr, py_split s MSG_STR_SPLITTER = [level, msg] →
      parse_std_and_write_to_gp_ui s =
        (if level = "ERROR".data ∨ level = "CRITICAL".data then (GPMessageSink.error, msg)
         else if level = "WARNING".data then (GPMessageSink.warning, msg)
         else (GPMessageSink.info, msg))) ∧
    ((py_split s MSG_STR_SPLITTER).length ≠ 2 →
      parse_std_and_write_to_gp_ui s = (GPMessageSink.info, s)) := by
  constructor
  · intro level msg hsplit
    unfold parse_std_and_write_to_gp_ui
    rw [hsplit]
  · intro hlen
    unfold parse_std_and_write_to_gp_ui
    generalize hsp : py_split s MSG_STR_SPLITTER = parts at hlen ⊢
    rcases parts with _ | ⟨a, _ | ⟨b, _ | ⟨c, tl⟩⟩⟩
    · rfl
    · rfl
    · simp at hlen
    · rfl

/-- Witness for C10: an `ERROR`-prefixed message goes to the error sink, a
`WARNING`-prefixed one to the warning sink, a `DEBUG`-prefixed one to the info
sink, and a message that does not split into two parts is passed through
verbatim to the info sink. -/
theorem parse_std_routing_witness :
    parse_std_and_write_to_gp_ui "ERROR | bad".data = (GPMessageSink.error, "bad".data) ∧
    parse_std_and_write_to_gp_ui "WARNING | care".data = (GPMessageSink.warning, "care".data) ∧
    parse_std_and_write_to_gp_ui "DEBUG | fyi".data = (GPMessageSink.info, "fyi".data) ∧
    parse_std_and_write_to_gp_ui "Poorly-formatted message 1".data =
      (GPMessageSink.info, "Poorly-formatted message 1".data) ∧
    parse_std_and_write_to_gp_ui "Poorly | formatted | message 2".data =
      (GPMessageSink.info, "Poorly | formatted | message 2".data) := by
  refine ⟨?_, ?_, ?_, ?_, ?_⟩
  · rw [(parse_std_routing "ERROR | bad".data).1 "ERROR".data "bad".data (by decide)]
    decide
  · rw [(parse_std_routing "WARNING | care".data).1 "WARNING".data "care".data (by decide)]
    decide
  · rw [(parse_std_routing "DEBUG | fyi".data).1 "DEBUG".data "fyi".data (by decide)]
    decide
  · exact (parse_std_routing "Poorly-formatted message 1".data).2 (by decide)
  · exact (parse_std_routing "Poorly | formatted | message 2".data).2 (by decide)

theorem foldl_append_rows (fcs : List FeatureClass) (init : List (List PyStr)) :
    fcs.foldl (fun acc fc => acc ++ fc.rows) init =
      init ++ (fcs.map FeatureClass.rows).flatten := by
  induction fcs generalizing init with
  | nil => simp
  | cons fc rest ih => simp [ih, List.append_assoc]

/-- C9: merging `k` successful per-job outputs that all share one schema
yields exactly one combined output whose schema equals the schema of the
first output (the template) and whose rows are precisely the concatenation of
every output's rows, unchanged and in order — so the total row count is the
sum of the per-output row counts. -/
theorem merge_schema_and_row_count (fcs : List FeatureClass) (s : List PyStr)
    (hne : fcs ≠ []) (hs : ∀ fc ∈ fcs, fc.schema = s) :
    (post_process_route_fcs fcs).schema = s ∧
    (post_process_route_fcs fcs).rows = (fcs.map FeatureClass.rows).flatten ∧
    (post_process_route_fcs fcs).rows.length =
      (fcs.map (fun fc => fc.rows.length)).sum := by
  rcases fcs with _ | ⟨first, rest⟩
  · exact absurd rfl hne
  · refine ⟨hs first (by simp), ?_, ?_⟩
    · simp [post_process_route_fcs, foldl_append_rows]
    · simp only [post_process_route_fcs, foldl_append_rows, List.nil_append,
        List.length_flatten, List.map_map]
      rfl

/-- Witness for C9: merging two outputs with the same schema and 2 + 1 rows
gives that schema and the 3 appended rows. -/
theorem merge_schema_and_row_count_witness :
    post_process_route_fcs
      [{ schema := ["Name".data], rows := [["r1".data], ["r2".data]] },
       { schema := ["Name".data], rows := [["r3".data]] }] =
      { schema := ["Name".data], rows := [["r1".data], ["r2".data], ["r3".data]] } := by
  have h := merge_schema_and_row_count
    [{ schema := ["Name".data], rows := [["r1".data], ["r2".data]] },
     { schema := ["Name".data], rows := [["r3".data]] }]
    ["Name".data] (by simp)
    (by
      intro fc hfc
      rcases List.mem_cons.mp hfc with h1 | h1
      · rw [h1]
      · rcases List.mem_cons.mp h1 with h2 | h2
        · rw [h2]
        · simp at h2)
  obtain ⟨h1, h2, h3⟩ := h
  cases hpp : post_process_route_fcs
      [{ schema := ["Name".data], rows := [["r1".data], ["r2".data]] },
       { schema := ["Name".data], rows := [["r3".data]] }] with
  | mk sch rows =>
    rw [hpp] at h1 h2
    simp only at h1 h2
    rw [h1, h2]
    decide

/-- Counterexample to C5 as stated: with one well-matched origin-destination
pair and an unexpected internal error raised inside the solve, the job unit
does not return a `succeeded=false` job result — the error propagates out of
`solve_route` (`Except.error`), because neither `solve_route` nor
`Route.solve` has an exception handler. -/
theorem solve_internal_error_counterexample :
    solve_route false [sampleOrigin] [sampleDest] EngineOutcome.raises
      "scratch".data "job1".data (1, 1) = Except.error () := by rfl

/-- C5 amended: when an unexpected internal error is raised inside a Job
Unit's solve attempt, the error propagates out of the unit and is handled by
the dispatcher as a fatal worker failure; a `succeeded=false` Job Result with
the messages captured is returned only when the solver itself reports failure
without raising. -/
theorem solve_internal_error_propagates (reverse_direction : Bool)
    (origins : List OriginRow) (dests : List DestRow)
    (scratch_folder job_id : PyStr) (chunk : Nat × Nat)
    (hstops : insert_stops reverse_direction origins dests ≠ []) :
    solve_route reverse_direction origins dests EngineOutcome.raises
      scratch_folder job_id chunk = Except.error () ∧
    ∀ messages, solve_route reverse_direction origins dests
        (EngineOutcome.returns false messages) scratch_folder job_id chunk =
      Except.ok { jobId := job_id, solveSucceeded := false,
                  solveMessages := messages, outputRoutes := [] } := by
  have hlen : ¬ (insert_stops reverse_direction origins dests).length = 0 := by
    simpa [List.length_eq_zero] using hstops
  constructor
  · simp [solve_route, hlen]
  · intro messages
    simp [solve_route, hlen]

/-- Witness for C5 (amended): on a chunk with one matched pair, a raised
internal error propagates, while an engine-reported failure yields a
`succeeded=false` result carrying the solver messages. -/
theorem solve_internal_error_propagates_witness :
    solve_route false [sampleOrigin] [sampleDest] EngineOutcome.raises
      "scratch".data "job1".data (1, 1) = Except.error () ∧
    solve_route false [sampleOrigin] [sampleDest]
      (EngineOutcome.returns false ["no routes".data])
      "scratch".data "job1".data (1, 1) =
      Except.ok { jobId := "job1".data, solveSucceeded := false,
                  solveMessages := ["no routes".data], outputRoutes := [] } :=
  ⟨(solve_internal_error_propagates false [sampleOrigin] [sampleDest]
      "scratch".data "job1".data (1, 1) (by decide)).1,
   (solve_internal_error_propagates false [sampleOrigin] [sampleDest]
      "scratch".data "job1".data (1, 1) (by decide)).2 ["no routes".data]⟩

theorem insert_stops_loop_eq (reverse_direction : Bool) (dests : List DestRow)
    (origins : List OriginRow) :
    insert_stops_loop reverse_direction dests origins =
      ((matched_pairs dests origins).map (originStopRow reverse_direction),
       (matched_pairs dests origins).map (destStopRow reverse_direction)) := by
  induction origins with
  | nil => rfl
  | cons o rest ih =>
    cases hdi : o.destId with
    | none => simp [insert_stops_loop, matched_pairs, ih, hdi]
    | some dest_id =>
      cases hfd : find_destination dests dest_id with
      | none => simp [insert_stops_loop, matched_pairs, ih, hdi, hfd]
      | some d => simp [insert_stops_loop, matched_pairs, ih, hdi, hfd]

theorem insert_stops_eq (reverse_direction : Bool) (origins : List OriginRow)
    (dests : List DestRow) :
    insert_stops reverse_direction origins dests =
      (matched_pairs dests origins).map (originStopRow reverse_direction) ++
        (matched_pairs dests origins).map (destStopRow reverse_direction) := by
  unfold insert_stops
  rw [insert_stops_loop_eq]

theorem matched_pairs_all_unmatched (dests : List DestRow) :
    ∀ origins : List OriginRow,
      (∀ o ∈ origins, ∀ i, o.destId = some i → find_destination dests i = none) →
      matched_pairs dests origins = [] := by
  intro origins
  induction origins with
  | nil => intro _; rfl
  | cons o rest ih =>
    intro h
    have hrest := ih (fun o ho i hi => h o (by simp [ho]) i hi)
    cases hdi : o.destId with
    | none => simp [matched_pairs, hrest, hdi]
    | some i => simp [matched_pairs, hrest, hdi, h o (by simp) i hdi]

theorem matched_pairs_length_le (dests : List DestRow) (origins : List OriginRow) :
    (matched_pairs dests origins).length ≤ origins.length := by
  induction origins with
  | nil => simp [matched_pairs]
  | cons o rest ih =>
    cases hdi : o.destId with
    | none =>
      simp only [matched_pairs, hdi, List.length_cons]
      omega
    | some i =>
      cases hfd : find_destination dests i with
      | none =>
        simp only [matched_pairs, hdi, hfd, List.length_cons]
        omega
      | some d =>
        simp only [matched_pairs, hdi, hfd, List.length_cons]
        omega

/-- C6: for a chunk in which every origin's assigned-destination id is absent
from the destination input, every origin is silently skipped (no error),
zero stops are inserted, the route solve is skipped whatever the engine would
have done, and the job unit returns the initial job result with
`solveSucceeded = false`; more generally the stops hold exactly one
origin-destination row pair per matched origin, and the number of matched
origins — hence of routes produced — is at most the number of origins in the
chunk. -/
theorem unmatched_destinations_skipped (reverse_direction : Bool)
    (origins : List OriginRow) (dests : List DestRow) :
    ((∀ o ∈ origins, ∀ i, o.destId = some i → find_destination dests i = none) →
      insert_stops reverse_direction origins dests = [] ∧
      ∀ engine scratch_folder job_id chunk,
        solve_route reverse_direction origins dests engine scratch_folder job_id chunk =
          Except.ok (initial_job_result job_id) ∧
        (initial_job_result job_id).solveSucceeded = false) ∧
    (insert_stops reverse_direction origins dests).length =
      2 * (matched_pairs dests origins).length ∧
    (matched_pairs dests origins).length ≤ origins.length := by
  refine ⟨?_, ?_, matched_pairs_length_le dests origins⟩
  · intro h
    have hmp := matched_pairs_all_unmatched dests origins h
    have hstops : insert_stops reverse_direction origins dests = [] := by
      rw [insert_stops_eq, hmp]
      rfl
    refine ⟨hstops, ?_⟩
    intro engine scratch_folder job_id chunk
    constructor
    · simp [solve_route, hstops]
    · rfl
  · rw [insert_stops_eq]
    simp [two_mul]

/-- Witness for C6: a chunk with one origin whose assigned destination `DX`
is absent from the destination input inserts zero stops and returns the
initial (`solveSucceeded = false`) job result without raising, even though
the engine would have raised. -/
theorem unmatched_destinations_skipped_witness :
    insert_stops false [orphanOrigin] [sampleDest] = [] ∧
    solve_route false [orphanOrigin] [sampleDest] EngineOutcome.raises
      "scratch".data "job2".data (1, 1) =
      Except.ok (initial_job_result "job2".data) := by
  have habs : ∀ o ∈ [orphanOrigin], ∀ i, o.destId = some i →
      find_destination [sampleDest] i = none := by
    intro o ho i hi
    rcases List.mem_cons.mp ho with h1 | h1
    · subst h1
      have hi' : some "DX".data = some i := hi
      cases hi'
      decide
    · simp at h1
  have h := (unmatched_destinations_skipped false [orphanOrigin] [sampleDest]).1 habs
  exact ⟨h.1, (h.2 EngineOutcome.raises "scratch".data "job2".data (1, 1)).1⟩

/-- C8: for the `k`-th origin/destination pair inserted as stops, the
origin's stop row appears at an earlier position than its matched
destination's stop row; both rows carry the same route name (the pair's
route-name group); and their `Sequence` values are exactly `{1, 2}` assigned
by travel direction — origin `1`, destination `2` when `reverse_direction` is
false, destination `1`, origin `2` when it is true. -/
theorem stop_insertion_ordering (reverse_direction : Bool)
    (origins : List OriginRow) (dests : List DestRow) (k : Nat)
    (m : OriginRow × PyStr × DestRow)
    (hm : (matched_pairs dests origins)[k]? = some m) :
    ∃ i j : Nat, i < j ∧
      (insert_stops reverse_direction origins dests)[i]? =
        some (originStopRow reverse_direction m) ∧
      (insert_stops reverse_direction origins dests)[j]? =
        some (destStopRow reverse_direction m) ∧
      (originStopRow reverse_direction m).routeName =
        (destStopRow reverse_direction m).routeName ∧
      (originStopRow reverse_direction m).sequence =
        (if reverse_direction then 2 else 1) ∧
      (destStopRow reverse_direction m).sequence =
        (if reverse_direction then 1 else 2) := by
  have hk : k < (matched_pairs dests origins).length := by
    by_contra hk
    rw [List.getElem?_eq_none (not_lt.mp hk)] at hm
    exact absurd hm (by simp)
  have hlen1 : ((matched_pairs dests origins).map
      (originStopRow reverse_direction)).length = (matched_pairs dests origins).length :=
    List.length_map _ _
  refine ⟨k, (matched_pairs dests origins).length + k, by omega, ?_, ?_, rfl, rfl, rfl⟩
  · rw [insert_stops_eq, List.getElem?_append_left (by omega), List.getElem?_map, hm]
    rfl
  · rw [insert_stops_eq, List.getElem?_append_right (by omega)]
    rw [hlen1]
    have : (matched_pairs dests origins).length + k -
        (matched_pairs dests origins).length = k := by omega
    rw [this, List.getElem?_map, hm]
    rfl

/-- Witness for C8: a chunk with a single matched origin-destination pair, in
forward direction — the origin stop precedes its destination stop, they share
the route name, and the sequences are origin `1`, destination `2`. -/
theorem stop_insertion_ordering_witness :
    (matched_pairs [sampleDest] [sampleOrigin])[0]? =
      some (sampleOrigin, "D1".data, sampleDest) ∧
    (∃ i j : Nat, i < j ∧
      (insert_stops false [sampleOrigin] [sampleDest])[i]? =
        some (originStopRow false (sampleOrigin, "D1".data, sampleDest)) ∧
      (insert_stops false [sampleOrigin] [sampleDest])[j]? =
        some (destStopRow false (sampleOrigin, "D1".data, sampleDest)) ∧
      (originStopRow false (sampleOrigin, "D1".data, sampleDest)).routeName =
        (destStopRow false (sampleOrigin, "D1".data, sampleDest)).routeName ∧
      (originStopRow false (sampleOrigin, "D1".data, sampleDest)).sequence =
        (if false then 2 else 1) ∧
      (destStopRow false (sampleOrigin, "D1".data, sampleDest)).sequence =
        (if false then 1 else 2)) :=
  ⟨by decide,
   stop_insertion_ordering false [sampleOrigin] [sampleDest] 0
     (sampleOrigin, "D1".data, sampleDest) (by decide)⟩

theorem apply_config_props_not_mem (settable : PyStr → PyStr → Bool)
    (set_by_tool : List PyStr) (props : List (PyStr × PyStr)) (p : PyStr)
    (hnot : ∀ v, (p, v) ∉ props) :
    ∀ s : SolverProps, apply_config_props settable set_by_tool s props p = s p := by
  induction props with
  | nil => intro s; rfl
  | cons pv rest ih =>
    intro s
    obtain ⟨q, v⟩ := pv
    have hq : p ≠ q := fun h => hnot v (by simp [h])
    have hrest : ∀ v, (p, v) ∉ rest := fun v hv => hnot v (by simp [hv])
    unfold apply_config_props
    rw [ih hrest]
    by_cases hmem : q ∈ set_by_tool
    · rw [if_pos hmem]
    · rw [if_neg hmem]
      by_cases hs : settable q v
      · rw [if_pos hs]
        simp [setProp, hq]
      · rw [if_neg hs]

/-- C7: the solver configuration of `Route.initialize_rt_solver` is a
three-layer merge with increasing precedence — engine defaults, then the
static `RT_PROPS` table (whose entries can individually fail to apply, and
whose `RT_PROPS_SET_BY_TOOL` entries are skipped), then the caller-controlled
properties `travelMode`, `timeUnits`, `distanceUnits`, `timeOfDay` — so the
four caller-controlled properties always end at their caller-supplied values
regardless of the static table's contents, every other property ends at its
static-table-over-defaults value, and a property named in no static-table
entry keeps its engine default. -/
theorem rt_solver_three_layer_merge (defaults : SolverProps)
    (rt_props : List (PyStr × PyStr)) (set_by_tool : List PyStr)
    (settable : PyStr → PyStr → Bool) (caller : CallerProps) :
    initialize_rt_solver defaults rt_props set_by_tool settable caller
      "travelMode".data = caller.travelMode ∧
    initialize_rt_solver defaults rt_props set_by_tool settable caller
      "timeUnits".data = caller.timeUnits ∧
    initialize_rt_solver defaults rt_props set_by_tool settable caller
      "distanceUnits".data = caller.distanceUnits ∧
    initialize_rt_solver defaults rt_props set_by_tool settable caller
      "timeOfDay".data = caller.timeOfDay ∧
    (∀ p : PyStr, p ≠ "travelMode".data → p ≠ "timeUnits".data →
      p ≠ "distanceUnits".data → p ≠ "timeOfDay".data →
      initialize_rt_solver defaults rt_props set_by_tool settable caller p =
        apply_config_props settable set_by_tool defaults rt_props p) ∧
    (∀ p : PyStr, (∀ v, (p, v) ∉ rt_props) →
      apply_config_props settable set_by_tool defaults rt_props p = defaults p) := by
  refine ⟨?_, ?_, ?_, ?_, ?_, ?_⟩
  · simp only [initialize_rt_solver, setProp]
    rw [if_neg (by decide), if_neg (by decide), if_neg (by decide), if_pos trivial]
  · simp only [initialize_rt_solver, setProp]
    rw [if_neg (by decide), if_neg (by decide), if_pos trivial]
  · simp only [initialize_rt_solver, setProp]
    rw [if_neg (by decide), if_pos trivial]
  · simp only [initialize_rt_solver, setProp]
    rw [if_pos trivial]
  · intro p h1 h2 h3 h4
    simp only [initialize_rt_solver, setProp]
    rw [if_neg h4, if_neg h3, if_neg h2, if_neg h1]
  · intro p hnot
    exact apply_config_props_not_mem settable set_by_tool rt_props p hnot defaults

/-- Witness for C7: with a static table that even contains a `travelMode`
entry, the caller's `travelMode` wins; a static-table entry not controlled by
the caller (`searchTolerance`) is applied over the default; and a property in
no layer keeps its engine default. -/
theorem rt_solver_three_layer_merge_witness :
    initialize_rt_solver (fun _ => "engineDefault".data)
      [("travelMode".data, "configTM".data), ("searchTolerance".data, "20".data)]
      ["travelMode".data, "timeUnits".data, "distanceUnits".data, "timeOfDay".data]
      (fun _ _ => true)
      { travelMode := "WalkTime".data, timeUnits := "Minutes".data,
        distanceUnits := "Miles".data, timeOfDay := "20220329 16:45".data }
      "travelMode".data = "WalkTime".data ∧
    initialize_rt_solver (fun _ => "engineDefault".data)
      [("travelMode".data, "configTM".data), ("searchTolerance".data, "20".data)]
      ["travelMode".data, "timeUnits".data, "distanceUnits".data, "timeOfDay".data]
      (fun _ _ => true)
      { travelMode := "WalkTime".data, timeUnits := "Minutes".data,
        distanceUnits := "Miles".data, timeOfDay := "20220329 16:45".data }
      "searchTolerance".data = "20".data ∧
    initialize_rt_solver (fun _ => "engineDefault".data)
      [("travelMode".data, "configTM".data), ("searchTolerance".data, "20".data)]
      ["travelMode".data, "timeUnits".data, "distanceUnits".data, "timeOfDay".data]
      (fun _ _ => true)
      { travelMode := "WalkTime".data, timeUnits := "Minutes".data,
        distanceUnits := "Miles".data, timeOfDay := "20220329 16:45".data }
      "returnDirections".data = "engineDefault".data := by
  refine ⟨?_, ?_, ?_⟩
  · exact (rt_solver_three_layer_merge (fun _ => "engineDefault".data)
      [("travelMode".data, "configTM".data), ("searchTolerance".data, "20".data)]
      ["travelMode".data, "timeUnits".data, "distanceUnits".data, "timeOfDay".data]
      (fun _ _ => true)
      { travelMode := "WalkTime".data, timeUnits := "Minutes".data,
        distanceUnits := "Miles".data, timeOfDay := "20220329 16:45".data }).1
  · rw [(rt_solver_three_layer_merge (fun _ => "engineDefault".data)
      [("travelMode".data, "configTM".data), ("searchTolerance".data, "20".data)]
      ["travelMode".data, "timeUnits".data, "distanceUnits".data, "timeOfDay".data]
      (fun _ _ => true)
      { travelMode := "WalkTime".data, timeUnits := "Minutes".data,
        distanceUnits := "Miles".data, timeOfDay := "20220329 16:45".data
        }).2.2.2.2.1 "searchTolerance".data
      (by decide) (by decide) (by decide) (by decide)]
    decide
  · rw [(rt_solver_three_layer_merge (fun _ => "engineDefault".data)
      [("travelMode".data, "configTM".data), ("searchTolerance".data, "20".data)]
      ["travelMode".data, "timeUnits".data, "distanceUnits".data, "timeOfDay".data]
      (fun _ _ => true)
      { travelMode := "WalkTime".data, timeUnits := "Minutes".data,
        distanceUnits := "Miles".data, timeOfDay := "20220329 16:45".data
        }).2.2.2.2.1 "returnDirections".data
      (by decide) (by decide) (by decide) (by decide)]
    decide

/-- Counterexample to C2 as stated: the merge-order key is the full
intermediate output path, which embeds the per-job random `uuid4` id ahead of
the chunk bounds.  Two runs of the same two-chunk batch, differing only in
which random job id each chunk drew, sort into different chunk orders: run A
(chunk `[1,50]` under job id `b`, chunk `[51,100]` under job id `a`) merges
the `[51,100]` output first, while run B (the opposite id assignment) merges
the `[1,50]` output first.  So the key does not correlate with the chunk's
lower bound, and the row order of the final combined output is not
reproducible across runs of the same batch. -/
theorem merge_sort_order_counterexample :
    sortRouteFcs
      [output_routes_path "sf".data "b".data (1, 50),
       output_routes_path "sf".data "a".data (51, 100)] =
      [output_routes_path "sf".data "a".data (51, 100),
       output_routes_path "sf".data "b".data (1, 50)] ∧
    sortRouteFcs
      [output_routes_path "sf".data "a".data (1, 50),
       output_routes_path "sf".data "b".data (51, 100)] =
      [output_routes_path "sf".data "a".data (1, 50),
       output_routes_path "sf".data "b".data (51, 100)] := by decide

/-- C2 amended: before appending, the Result Merger sorts the successful
outputs by their output path strings, a deterministic key — the merge order
is a function of the collected path set alone, independent of the arrival
order of completions — but since the paths embed the per-run random job ids,
that order need not follow chunk lower bounds nor be reproducible across
runs that draw different job ids. -/
theorem merge_sort_deterministic (fcs fcs' : List PyStr) (h : fcs.Perm fcs') :
    sortRouteFcs fcs = sortRouteFcs fcs' ∧
    List.Sorted strLeR (sortRouteFcs fcs) ∧
    (sortRouteFcs fcs).Perm fcs := by
  refine ⟨?_, List.sorted_insertionSort strLeR fcs, List.perm_insertionSort strLeR fcs⟩
  exact List.eq_of_perm_of_sorted
    (((List.perm_insertionSort strLeR fcs).trans h).trans
      (List.perm_insertionSort strLeR fcs').symm)
    (List.sorted_insertionSort strLeR fcs)
    (List.sorted_insertionSort strLeR fcs')

/-- Witness for C2 (amended): two arrival orders of the same two collected
outputs sort identically, into ascending path order. -/
theorem merge_sort_deterministic_witness :
    (["b".data, "a".data] : List PyStr).Perm ["a".data, "b".data] ∧
    sortRouteFcs ["b".data, "a".data] = sortRouteFcs ["a".data, "b".data] ∧
    sortRouteFcs ["b".data, "a".data] = ["a".data, "b".data] :=
  ⟨by decide,
   (merge_sort_deterministic ["b".data, "a".data] ["a".data, "b".data] (by decide)).1,
   by decide⟩
